import Mathlib

/-!
Shallow embedding of the interactive code-structure graph explorer of
CodeExplain, translated from src/frontend/src/view/CodeVisualization.jsx.
The component stores the raw graph returned by the backend, derives a
filtered view keyed by the current filter category, and computes one-hop
highlight sets on node click.  All definitions below mirror the JavaScript
source line by line; theorems settle the specification claims about them.
-/

namespace CodeVisualization

/-- A graph node as produced by the analysis service and consumed by the
component: an id, a display label, a free-form type string and a category
group (function, class, variable or other). -/
structure Node where
  id : String
  label : String
  type : String
  group : String
  deriving DecidableEq

/-- A raw edge endpoint: the source either gives a bare id string, or an
object carrying an id field (the force-layout library rewrites endpoints
into node objects in place).  Mirrors the JS discrimination
(typeof link.source === object ? link.source.id : link.source). -/
inductive Endpoint where
  | str : String → Endpoint
  | obj : String → Endpoint
  deriving DecidableEq

/-- Resolve an endpoint to its canonical id string, as every use site in
the component does. -/
def Endpoint.resolveId : Endpoint → String
  | .str s => s
  | .obj s => s

/-- A raw edge: two endpoints and a relationship type. -/
structure Link where
  source : Endpoint
  target : Endpoint
  type : String
  deriving DecidableEq

/-- The resolved source id of a link (const sourceId = typeof link.source
=== object ? link.source.id : link.source). -/
def sourceId (l : Link) : String := l.source.resolveId

/-- The resolved target id of a link. -/
def targetId (l : Link) : String := l.target.resolveId

/-- The composite highlight key of a link (sourceId + "->" + targetId). -/
def linkKey (l : Link) : String := sourceId l ++ "->" ++ targetId l

/-- The loosely-typed raw graph payload as stored by setGraphData: a node
array and an edge array that may appear under either the links or the
edges key (either may be absent). -/
structure RawGraph where
  nodes : Option (List Node)
  links : Option (List Link)
  edges : Option (List Link)
  deriving DecidableEq

/-- The node list as the component reads it: graphData.nodes or []. -/
def rawNodes (g : RawGraph) : List Node := g.nodes.getD []

/-- The edge list as the component reads it: graphData.links ||
graphData.edges || [] (links takes precedence when present). -/
def rawLinks (g : RawGraph) : List Link := (g.links <|> g.edges).getD []

/-- The canonical view passed to the rendering surface: a nodes list and a
links list. -/
structure ViewGraph where
  nodes : List Node
  links : List Link
  deriving DecidableEq

/-- The filteredData useMemo: when filterType is not the string all, keep
only nodes whose group equals filterType and only links both of whose
resolved endpoints are ids of kept nodes; otherwise pass the stored lists
through unchanged. -/
def filteredData (g : RawGraph) (filterType : String) : ViewGraph :=
  let filteredNodes := rawNodes g
  let filteredLinks := rawLinks g
  if filterType ≠ "all" then
    let fn := filteredNodes.filter (fun n => n.group == filterType)
    let nodeIds := fn.map (fun n => n.id)
    let fl := filteredLinks.filter
      (fun l => nodeIds.contains (sourceId l) && nodeIds.contains (targetId l))
    { nodes := fn, links := fl }
  else
    { nodes := filteredNodes, links := filteredLinks }

/-- The body of the forEach loop in handleNodeClick: when either resolved
endpoint of the link equals the clicked id, add both endpoint ids to the
node set and the composite key to the key set; otherwise leave the
accumulator alone. -/
def highlightStep (nid : String) (acc : Finset String × Finset String)
    (l : Link) : Finset String × Finset String :=
  if sourceId l == nid || targetId l == nid then
    (insert (targetId l) (insert (sourceId l) acc.1),
     insert (linkKey l) acc.2)
  else acc

/-- The two highlight sets computed by handleNodeClick: fold the per-link
body over the links of the filtered view, starting from the singleton of
the clicked id and the empty key set. -/
def highlightSets (links : List Link) (nid : String) :
    Finset String × Finset String :=
  links.foldl (highlightStep nid) ({nid}, ∅)

/-- The component state held in React hooks: stored raw graph, loading and
error flags, selected node, filter category and the two highlight sets. -/
structure ViewState where
  graphData : Option RawGraph
  loading : Bool
  error : Option String
  selectedNode : Option Node
  filterType : String
  highlightNodes : Finset String
  highlightLinks : Finset String
  deriving DecidableEq

/-- The outcome of one /visualize fetch: a success carrying a graph
payload (data.ok && data.graph), a semantic failure carrying the optional
data.detail?.message, or a transport failure carrying the optional
err.message caught by the try/catch. -/
inductive FetchResult where
  | success : RawGraph → FetchResult
  | apiFailure : Option String → FetchResult
  | transportFailure : Option String → FetchResult
  deriving DecidableEq

/-- The synchronous head of fetchGraphData: setLoading(true);
setError(null). -/
def startFetch (s : ViewState) : ViewState :=
  { s with loading := true, error := none }

/-- Applying a resolved fetch to the state, exactly as the response
handler does: a success stores the graph wholesale; a semantic failure
sets the service message or the generic fallback; a transport failure sets
the caught message or its fallback; the finally clause clears loading.
The stored graph is untouched on both failure paths, and no case
throws. -/
def applyFetchResult (s : ViewState) : FetchResult → ViewState
  | .success g =>
      { s with graphData := some g, loading := false }
  | .apiFailure m =>
      { s with error := some (m.getD "Failed to generate visualization"),
               loading := false }
  | .transportFailure m =>
      { s with error := some (m.getD "Unable to connect to backend server"),
               loading := false }

/-- One full fetch lifecycle with no interleaving: start, then apply the
response. -/
def fetchCycle (s : ViewState) (r : FetchResult) : ViewState :=
  applyFetchResult (startFetch s) r

/-- The test !code.trim() of the fetch effect guard: code.trim() strips
leading and trailing whitespace, so the trimmed string is empty exactly
when every character of the code is whitespace. -/
def trimmedEmpty (code : String) : Bool :=
  code.data.all Char.isWhitespace

/-- The guard at the top of the fetch effect: when the code is empty or
whitespace-only (!code || !code.trim()), the stored graph is cleared and
no fetch is issued; otherwise the fetch starts.  The boolean records
whether a fetch was issued. -/
def onCodeChange (s : ViewState) (code : String) : ViewState × Bool :=
  if code == "" || trimmedEmpty code then
    ({ s with graphData := none }, false)
  else
    (startFetch s, true)

/-- The filter select onChange handler: store the new category, clear the
selected node and empty both highlight sets. -/
def onFilterChange (s : ViewState) (value : String) : ViewState :=
  { s with filterType := value, selectedNode := none,
           highlightNodes := ∅, highlightLinks := ∅ }

/-- handleNodeClick: record the clicked node as selected and recompute
both highlight sets from the links of the current filtered view
(filteredData?.links || []). -/
def handleNodeClick (s : ViewState) (node : Node) : ViewState :=
  let links := match s.graphData with
    | some g => (filteredData g s.filterType).links
    | none => []
  let sets := highlightSets links node.id
  { s with selectedNode := some node,
           highlightNodes := sets.1, highlightLinks := sets.2 }

/-- handleBackgroundClick: clear the selected node and both highlight
sets. -/
def handleBackgroundClick (s : ViewState) : ViewState :=
  { s with selectedNode := none, highlightNodes := ∅, highlightLinks := ∅ }

/-! Concrete graphs used by the specification scenarios. -/

/-- Node f1 of the section 8 scenario. -/
def nodeF1 : Node := { id := "f1", label := "f1", type := "function", group := "function" }

/-- Node c1 of the section 8 scenario. -/
def nodeC1 : Node := { id := "c1", label := "c1", type := "class", group := "class" }

/-- Node v1 of the section 8 scenario. -/
def nodeV1 : Node := { id := "v1", label := "v1", type := "variable", group := "variable" }

/-- Edge f1 -> c1 of the section 8 scenario. -/
def linkF1C1 : Link := { source := .str "f1", target := .str "c1", type := "calls" }

/-- Edge c1 -> v1 of the section 8 scenario. -/
def linkC1V1 : Link := { source := .str "c1", target := .str "v1", type := "contains" }

/-- The three-node concrete graph of section 8, delivered under the edges
key as the scenario writes it. -/
def graphS8 : RawGraph :=
  { nodes := some [nodeF1, nodeC1, nodeV1],
    links := none,
    edges := some [linkF1C1, linkC1V1] }

/-- A raw payload containing a dangling edge: its target id ghost names no
node. -/
def graphDangling : RawGraph :=
  { nodes := some [nodeF1],
    links := none,
    edges := some [{ source := .str "f1", target := .str "ghost", type := "calls" }] }

/-- A distinct successful payload, the result of the earlier fetch A in
the race scenario. -/
def graphA : RawGraph :=
  { nodes := some [nodeF1], links := some [], edges := none }

/-- A distinct successful payload, the result of the later fetch B in the
race scenario. -/
def graphB : RawGraph :=
  { nodes := some [nodeC1], links := some [], edges := none }

/-- The state the component mounts with: no graph, not loading, no error,
no selection, filter all, empty highlight sets. -/
def initialState : ViewState :=
  { graphData := none, loading := false, error := none,
    selectedNode := none, filterType := "all",
    highlightNodes := ∅, highlightLinks := ∅ }

/-- The race of the stale-response scenario, played on the code as
written: fetch A starts, fetch B starts, B resolves with graphB, then the
superseded A resolves with graphA; each resolution runs the response
handler unconditionally, in arrival order, with no sequence token. -/
def staleRaceFinal : ViewState :=
  applyFetchResult
    (applyFetchResult (startFetch (startFetch initialState)) (.success graphB))
    (.success graphA)

/-- Two raw links carry the same canonical content when their resolved
endpoint ids and their type agree, regardless of whether each endpoint is
a bare id string or an object carrying an id field. -/
def Link.shapeEquiv (a b : Link) : Prop :=
  sourceId a = sourceId b ∧ targetId a = targetId b ∧ a.type = b.type

/-- The edge f1 -> c1 with both endpoints given as bare id strings. -/
def strLink : Link := { source := .str "f1", target := .str "c1", type := "calls" }

/-- The edge f1 -> c1 with both endpoints given as objects carrying an id
field. -/
def objLink : Link := { source := .obj "f1", target := .obj "c1", type := "calls" }

/-! Helper lemmas about the filtered view and the highlight fold. -/

lemma filteredData_nonall (g : RawGraph) (ft : String) (h : ft ≠ "all") :
    filteredData g ft =
      { nodes := (rawNodes g).filter (fun n => n.group == ft),
        links := (rawLinks g).filter (fun l =>
          (((rawNodes g).filter (fun n => n.group == ft)).map
              (fun n => n.id)).contains (sourceId l) &&
          (((rawNodes g).filter (fun n => n.group == ft)).map
              (fun n => n.id)).contains (targetId l)) } := by
  simp [filteredData, h]

lemma mem_fst_foldl_highlightStep (nid x : String) (links : List Link) :
    ∀ acc : Finset String × Finset String,
      (x ∈ (links.foldl (highlightStep nid) acc).1 ↔
        x ∈ acc.1 ∨ ∃ l, l ∈ links ∧ (sourceId l = nid ∨ targetId l = nid) ∧
          (x = sourceId l ∨ x = targetId l)) := by
  induction links with
  | nil => intro acc; simp
  | cons l ls ih =>
    intro acc
    rw [List.foldl_cons, ih]
    simp only [highlightStep, List.mem_cons, Bool.or_eq_true, beq_iff_eq]
    split_ifs with h
    · simp only [Finset.mem_insert]
      constructor
      · rintro ((rfl | rfl | hx) | ⟨l2, hl2, hc, hx⟩)
        · exact Or.inr ⟨l, Or.inl rfl, h, Or.inr rfl⟩
        · exact Or.inr ⟨l, Or.inl rfl, h, Or.inl rfl⟩
        · exact Or.inl hx
        · exact Or.inr ⟨l2, Or.inr hl2, hc, hx⟩
      · rintro (hx | ⟨l2, rfl | hl2, hc, hx⟩)
        · exact Or.inl (Or.inr (Or.inr hx))
        · rcases hx with rfl | rfl
          · exact Or.inl (Or.inr (Or.inl rfl))
          · exact Or.inl (Or.inl rfl)
        · exact Or.inr ⟨l2, hl2, hc, hx⟩
    · constructor
      · rintro (hx | ⟨l2, hl2, hc, hx⟩)
        · exact Or.inl hx
        · exact Or.inr ⟨l2, Or.inr hl2, hc, hx⟩
      · rintro (hx | ⟨l2, rfl | hl2, hc, hx⟩)
        · exact Or.inl hx
        · exact absurd hc h
        · exact Or.inr ⟨l2, hl2, hc, hx⟩

lemma mem_snd_foldl_highlightStep (nid k : String) (links : List Link) :
    ∀ acc : Finset String × Finset String,
      (k ∈ (links.foldl (highlightStep nid) acc).2 ↔
        k ∈ acc.2 ∨ ∃ l, l ∈ links ∧ (sourceId l = nid ∨ targetId l = nid) ∧
          k = linkKey l) := by
  induction links with
  | nil => intro acc; simp
  | cons l ls ih =>
    intro acc
    rw [List.foldl_cons, ih]
    simp only [highlightStep, List.mem_cons, Bool.or_eq_true, beq_iff_eq]
    split_ifs with h
    · simp only [Finset.mem_insert]
      constructor
      · rintro ((rfl | hx) | ⟨l2, hl2, hc, hx⟩)
        · exact Or.inr ⟨l, Or.inl rfl, h, rfl⟩
        · exact Or.inl hx
        · exact Or.inr ⟨l2, Or.inr hl2, hc, hx⟩
      · rintro (hx | ⟨l2, rfl | hl2, hc, rfl⟩)
        · exact Or.inl (Or.inr hx)
        · exact Or.inl (Or.inl rfl)
        · exact Or.inr ⟨l2, hl2, hc, rfl⟩
    · constructor
      · rintro (hx | ⟨l2, hl2, hc, hx⟩)
        · exact Or.inl hx
        · exact Or.inr ⟨l2, Or.inr hl2, hc, hx⟩
      · rintro (hx | ⟨l2, rfl | hl2, hc, hx⟩)
        · exact Or.inl hx
        · exact absurd hc h
        · exact Or.inr ⟨l2, hl2, hc, hx⟩

lemma linkKey_congr {a b : Link} (h : Link.shapeEquiv a b) :
    linkKey a = linkKey b := by
  obtain ⟨hs, ht, -⟩ := h
  simp only [linkKey, hs, ht]

lemma highlightStep_congr (nid : String) (acc : Finset String × Finset String)
    {a b : Link} (h : Link.shapeEquiv a b) :
    highlightStep nid acc a = highlightStep nid acc b := by
  obtain ⟨hs, ht, -⟩ := h
  simp only [highlightStep, linkKey, hs, ht]

lemma foldl_highlightStep_congr (nid : String) {ls ls2 : List Link}
    (h : List.Forall₂ Link.shapeEquiv ls ls2) :
    ∀ acc, ls.foldl (highlightStep nid) acc = ls2.foldl (highlightStep nid) acc := by
  induction h with
  | nil => intro acc; rfl
  | @cons a b l1 l2 hab htail ih =>
    intro acc
    rw [List.foldl_cons, List.foldl_cons, highlightStep_congr nid acc hab]
    exact ih _

lemma filter_links_congr (ids : List String) {ls ls2 : List Link}
    (h : List.Forall₂ Link.shapeEquiv ls ls2) :
    List.Forall₂ Link.shapeEquiv
      (ls.filter (fun l => ids.contains (sourceId l) && ids.contains (targetId l)))
      (ls2.filter (fun l => ids.contains (sourceId l) && ids.contains (targetId l))) := by
  induction h with
  | nil => exact List.Forall₂.nil
  | @cons a b l1 l2 hab htail ih =>
    obtain ⟨hs, ht, hty⟩ := hab
    simp only [List.filter_cons]
    rw [hs, ht]
    split_ifs with hp
    · exact List.Forall₂.cons ⟨hs, ht, hty⟩ ih
    · exact ih

lemma map_linkKey_congr {ls ls2 : List Link}
    (h : List.Forall₂ Link.shapeEquiv ls ls2) :
    ls.map linkKey = ls2.map linkKey := by
  induction h with
  | nil => rfl
  | @cons a b l1 l2 hab htail ih =>
    simp only [List.map_cons, ih, linkKey_congr hab]

/-! Theorems settling the specification claims. -/

/-- C6: for every graph, filtering with category all is the identity on
both the node list and the edge list: the view equals the stored lists
unchanged, whichever of the links or edges keys carries them. -/
theorem filter_all_identity :
    (∀ g : RawGraph,
      filteredData g "all" = { nodes := rawNodes g, links := rawLinks g }) ∧
    (∀ (ns : List Node) (ls : List Link),
      filteredData { nodes := some ns, links := some ls, edges := none } "all"
          = { nodes := ns, links := ls } ∧
      filteredData { nodes := some ns, links := none, edges := some ls } "all"
          = { nodes := ns, links := ls }) := by
  refine ⟨fun g => by simp [filteredData], fun ns ls => ⟨?_, ?_⟩⟩ <;>
    simp [filteredData, rawNodes, rawLinks]

/-- C7: changing the filter category clears the selected node and empties
both highlight sets (and stores the new category), while clicking a node
leaves the filter category at its prior value. -/
theorem filter_change_clears_selection_click_keeps_filter :
    (∀ (s : ViewState) (c : String),
      (onFilterChange s c).selectedNode = none ∧
      (onFilterChange s c).highlightNodes = ∅ ∧
      (onFilterChange s c).highlightLinks = ∅ ∧
      (onFilterChange s c).filterType = c) ∧
    (∀ (s : ViewState) (n : Node),
      (handleNodeClick s n).filterType = s.filterType) :=
  ⟨fun _ _ => ⟨rfl, rfl, rfl, rfl⟩, fun _ _ => rfl⟩

/-- C8: a background click sets the selected node to none and both
highlight sets to empty, and changes nothing else: the filter category,
the stored graph, the loading flag and the error are all unchanged. -/
theorem background_click_frame :
    ∀ s : ViewState,
      (handleBackgroundClick s).selectedNode = none ∧
      (handleBackgroundClick s).highlightNodes = ∅ ∧
      (handleBackgroundClick s).highlightLinks = ∅ ∧
      (handleBackgroundClick s).filterType = s.filterType ∧
      (handleBackgroundClick s).graphData = s.graphData ∧
      (handleBackgroundClick s).loading = s.loading ∧
      (handleBackgroundClick s).error = s.error :=
  fun _ => ⟨rfl, rfl, rfl, rfl, rfl, rfl, rfl⟩

/-- C3: a failing fetch, semantic (ok false or missing graph) or
transport (caught exception), leaves the stored graph unchanged, retains
for display the service-provided message when present and the matching
generic fallback otherwise, and ends the cycle with loading cleared; both
failure paths are ordinary state transitions, so nothing escapes the
component. -/
theorem fetch_failure_keeps_graph_sets_message :
    ∀ (s : ViewState) (m : Option String),
      (fetchCycle s (.apiFailure m)).graphData = s.graphData ∧
      (fetchCycle s (.apiFailure m)).error
          = some (m.getD "Failed to generate visualization") ∧
      (fetchCycle s (.apiFailure m)).loading = false ∧
      (fetchCycle s (.transportFailure m)).graphData = s.graphData ∧
      (fetchCycle s (.transportFailure m)).error
          = some (m.getD "Unable to connect to backend server") ∧
      (fetchCycle s (.transportFailure m)).loading = false :=
  fun _ _ => ⟨rfl, rfl, rfl, rfl, rfl, rfl⟩

/-- C2 counterexample: in the race where fetch A starts, fetch B starts,
B resolves and then the superseded A resolves, the final stored graph is
the stale result of A, not the result of B, refuting the claim that a
superseded fetch never overwrites state produced by a later fetch. -/
theorem stale_fetch_overwrites_later_result :
    staleRaceFinal.graphData = some graphA ∧ graphA ≠ graphB :=
  ⟨rfl, by decide⟩

/-- C2 amended: responses are applied unconditionally in arrival order,
with no sequence token, so the final stored graph equals the result of
whichever successful fetch resolves last, here the superseded fetch A. -/
theorem last_resolving_fetch_wins :
    ∀ (s : ViewState) (gB gA : RawGraph),
      (applyFetchResult
          (applyFetchResult (startFetch (startFetch s)) (.success gB))
          (.success gA)).graphData = some gA :=
  fun _ _ _ => rfl

/-- C10: when the input code is empty or whitespace-only, the effect
clears the stored graph (the prior graph is not retained) and issues no
fetch. -/
theorem blank_code_clears_graph_no_fetch :
    ∀ (s : ViewState) (code : String),
      (code == "" || trimmedEmpty code) = true →
      (onCodeChange s code).1.graphData = none ∧
      (onCodeChange s code).2 = false := by
  intro s code h
  simp [onCodeChange, h]

/-- Witness for C10 at a concrete whitespace-only input and a state that
holds a previously fetched graph. -/
theorem blank_code_clears_graph_no_fetch_witness :
    (("  " == "" || trimmedEmpty "  ") = true) ∧
    (onCodeChange { initialState with graphData := some graphA } "  ").1.graphData
        = none ∧
    (onCodeChange { initialState with graphData := some graphA } "  ").2 = false :=
  ⟨by decide,
   (blank_code_clears_graph_no_fetch
      { initialState with graphData := some graphA } "  " (by decide)).1,
   (blank_code_clears_graph_no_fetch
      { initialState with graphData := some graphA } "  " (by decide)).2⟩

/-- C1 counterexample: there is no normalization step, so under category
all the stored graph is passed through unchanged and the view exposed to
the rendering surface contains an edge whose resolved target id names no
node of its node set. -/
theorem filter_all_passes_dangling_edge :
    ∃ l ∈ (filteredData graphDangling "all").links,
      ((filteredData graphDangling "all").nodes.map
          (fun n => n.id)).contains (targetId l) = false :=
  ⟨{ source := .str "f1", target := .str "ghost", type := "calls" },
   by decide, by decide⟩

/-- C1 amended: only for a category other than all does the component
drop edges with out-of-set endpoints: every link of such a filtered view
has both of its resolved endpoint ids among the ids of the view's node
set. -/
theorem filter_nonall_no_dangling_edges :
    ∀ (g : RawGraph) (ft : String), ft ≠ "all" →
      ∀ l ∈ (filteredData g ft).links,
        sourceId l ∈ (filteredData g ft).nodes.map (fun n => n.id) ∧
        targetId l ∈ (filteredData g ft).nodes.map (fun n => n.id) := by
  intro g ft hft l hl
  rw [filteredData_nonall g ft hft] at hl ⊢
  simp only [List.mem_filter, Bool.and_eq_true] at hl
  exact ⟨List.elem_iff.mp hl.2.1, List.elem_iff.mp hl.2.2⟩

/-- Witness for the amended C1 at the concrete section 8 graph filtered
to functions. -/
theorem filter_nonall_no_dangling_edges_witness :
    (("function" : String) ≠ "all") ∧
    ∀ l ∈ (filteredData graphS8 "function").links,
      sourceId l ∈ (filteredData graphS8 "function").nodes.map (fun n => n.id) ∧
      targetId l ∈ (filteredData graphS8 "function").nodes.map (fun n => n.id) :=
  ⟨by decide, filter_nonall_no_dangling_edges graphS8 "function" (by decide)⟩

/-- C4: for a category other than all, the filtered view keeps exactly
the nodes whose group equals the category, and exactly the links of the
stored graph both of whose resolved endpoint ids belong to the filtered
node set; on the concrete section 8 graph, filtering to functions yields
the single node f1 and no edges. -/
theorem filter_category_spec :
    (∀ (g : RawGraph) (c : String), c ≠ "all" →
      (∀ n : Node, n ∈ (filteredData g c).nodes ↔
        n ∈ rawNodes g ∧ n.group = c) ∧
      (∀ l : Link, l ∈ (filteredData g c).links ↔
        l ∈ rawLinks g ∧
        sourceId l ∈ (filteredData g c).nodes.map (fun n => n.id) ∧
        targetId l ∈ (filteredData g c).nodes.map (fun n => n.id))) ∧
    filteredData graphS8 "function" = { nodes := [nodeF1], links := [] } := by
  refine ⟨?_, by decide⟩
  intro g c hc
  constructor
  · intro n
    rw [filteredData_nonall g c hc]
    simp [List.mem_filter]
  · intro l
    rw [filteredData_nonall g c hc]
    simp only [List.mem_filter, Bool.and_eq_true]
    constructor
    · rintro ⟨hmem, hs, ht⟩
      exact ⟨hmem, List.elem_iff.mp hs, List.elem_iff.mp ht⟩
    · rintro ⟨hmem, hs, ht⟩
      exact ⟨hmem, List.elem_iff.mpr hs, List.elem_iff.mpr ht⟩

/-- Witness for C4 at the concrete section 8 graph, category function,
instantiating the node characterization at node f1. -/
theorem filter_category_spec_witness :
    (("function" : String) ≠ "all") ∧
    (nodeF1 ∈ (filteredData graphS8 "function").nodes ↔
      nodeF1 ∈ rawNodes graphS8 ∧ nodeF1.group = "function") :=
  ⟨by decide,
   (filter_category_spec.1 graphS8 "function" (by decide)).1 nodeF1⟩

/-- C5: the highlight node set contains exactly the selected id together
with both endpoint ids of every link incident to it, the highlight key
set contains exactly the composite source-arrow-target keys of those
links, the selected id is always a member even with no incident links,
and on the concrete section 8 graph selecting c1 yields node ids c1, f1,
v1 and keys f1->c1 and c1->v1. -/
theorem highlight_spec :
    (∀ (links : List Link) (nid x : String),
      x ∈ (highlightSets links nid).1 ↔
        x = nid ∨ ∃ l, l ∈ links ∧ (sourceId l = nid ∨ targetId l = nid) ∧
          (x = sourceId l ∨ x = targetId l)) ∧
    (∀ (links : List Link) (nid k : String),
      k ∈ (highlightSets links nid).2 ↔
        ∃ l, l ∈ links ∧ (sourceId l = nid ∨ targetId l = nid) ∧ k = linkKey l) ∧
    (∀ (links : List Link) (nid : String), nid ∈ (highlightSets links nid).1) ∧
    highlightSets (filteredData graphS8 "all").links "c1"
        = ({"c1", "f1", "v1"}, {"f1->c1", "c1->v1"}) := by
  refine ⟨?_, ?_, ?_, by decide⟩
  · intro links nid x
    rw [highlightSets, mem_fst_foldl_highlightStep]
    simp
  · intro links nid k
    rw [highlightSets, mem_snd_foldl_highlightStep]
    simp
  · intro links nid
    rw [highlightSets, mem_fst_foldl_highlightStep]
    simp

/-- C9: an edge endpoint given as an object carrying an id and the same
endpoint given as a bare id resolve identically, so link lists that agree
on resolved ids and type produce the same filtered node set, pairwise
equivalent filtered link lists, equal highlight sets and equal composite
edge keys. -/
theorem endpoint_shape_irrelevant :
    ∀ (ns : List Node) (ls ls2 : List Link) (e e2 : Option (List Link))
      (ft nid : String),
      List.Forall₂ Link.shapeEquiv ls ls2 →
      (filteredData { nodes := some ns, links := some ls, edges := e } ft).nodes
          = (filteredData { nodes := some ns, links := some ls2, edges := e2 } ft).nodes ∧
      List.Forall₂ Link.shapeEquiv
        (filteredData { nodes := some ns, links := some ls, edges := e } ft).links
        (filteredData { nodes := some ns, links := some ls2, edges := e2 } ft).links ∧
      highlightSets ls nid = highlightSets ls2 nid ∧
      ls.map linkKey = ls2.map linkKey := by
  intro ns ls ls2 e e2 ft nid h
  have hraw : rawLinks { nodes := some ns, links := some ls, edges := e } = ls := by
    simp [rawLinks, Option.orElse]
  have hraw2 : rawLinks { nodes := some ns, links := some ls2, edges := e2 } = ls2 := by
    simp [rawLinks, Option.orElse]
  refine ⟨?_, ?_, ?_, map_linkKey_congr h⟩
  · by_cases hft : ft = "all"
    · subst hft
      simp [filteredData, rawNodes]
    · rw [filteredData_nonall _ _ hft, filteredData_nonall _ _ hft]
      rfl
  · by_cases hft : ft = "all"
    · subst hft
      simpa [filteredData, hraw, hraw2] using h
    · rw [filteredData_nonall _ _ hft, filteredData_nonall _ _ hft]
      rw [hraw, hraw2]
      exact filter_links_congr _ h
  · rw [highlightSets, highlightSets]
    exact foldl_highlightStep_congr nid h _

/-- Witness for C9 at the concrete pair of links carrying the edge
f1 -> c1 once with bare string endpoints and once with object
endpoints. -/
theorem endpoint_shape_irrelevant_witness :
    List.Forall₂ Link.shapeEquiv [strLink] [objLink] ∧
    highlightSets [strLink] "c1" = highlightSets [objLink] "c1" :=
  ⟨List.Forall₂.cons ⟨rfl, rfl, rfl⟩ List.Forall₂.nil,
   (endpoint_shape_irrelevant [] [strLink] [objLink] none none "all" "c1"
      (List.Forall₂.cons ⟨rfl, rfl, rfl⟩ List.Forall₂.nil)).2.2.1⟩

end CodeVisualization
